import Mathlib

/-!
Verification development for the gosed in-place streaming file replacer
(src/main.go). The Go code is shallowly embedded: byte sequences are lists
of naturals, file-system calls that can fail are driven by explicit
error-injection environments, and each engine returns a record of its
observable effects (return value, final config, file contents, scratch-file
path, trace of file-system steps, handles closed by the deferred cleanup,
and a flag recording an index-out-of-range panic).
-/

namespace Gosed

/-- A byte sequence (Go `[]byte`). -/
abbrev Bytes := List Nat

/-- A Go `error` value, modelled by its message. -/
abbrev Err := String

/-- Go `[]byte(s)` conversion, modelled as the character sequence of `s`
(the claims only depend on emptiness and identity of the result). -/
def strBytes (s : String) : Bytes :=
  s.toList.map (fun c => c.toNat)

/-- Everything before the last slash of a character sequence, or `none`
when it has no slash. -/
def beforeLastSlash : List Char → Option (List Char)
  | [] => none
  | c :: rest =>
    match beforeLastSlash rest with
    | some d => some (c :: d)
    | none => if c = '/' then some [] else none

/-- Simplified model of Go `path.Dir` for relative slash-separated paths:
everything before the final slash, or "." when there is no slash. -/
def pathDir (p : String) : String :=
  match beforeLastSlash p.toList with
  | some d => String.mk d
  | none => "."

/-- Simplified model of Go `path.Join` of a directory and a bare file name
(Go cleans a leading "./", so joining onto "." yields the bare name). -/
def pathJoin (d name : String) : String :=
  if d = "" ∨ d = "." then name else d ++ "/" ++ name

/-- replacerMappings (src/main.go:31-35): two parallel ordered sequences,
`Keys` holding the old patterns and `Indices` the replacements. -/
structure replacerMappings where
  Keys    : List Bytes
  Indices : List Bytes
deriving DecidableEq

/-- replacerConfig (src/main.go:21-29): the per-Replacer state. The open
file handle is an abstract identifier (`none` models a nil `*os.File`). -/
structure replacerConfig where
  File     : Option Nat
  FilePath : String
  FileSize : Int
  FilePerm : Nat
  Mappings : replacerMappings
deriving DecidableEq

/-- Result of an `os.Stat` call: the fields the code reads. -/
structure statInfo where
  size : Int
  perm : Nat
deriving DecidableEq

/-- NewMapping (src/main.go:62-70): reject an empty old pattern, otherwise
append the pair to the two parallel sequences. -/
def NewMapping (cfg : replacerConfig) (oldString newString : Bytes) :
    Option Err × replacerConfig :=
  if oldString.length = 0 then
    (some "cannot replace empty string with new value", cfg)
  else
    (none, { cfg with
      Mappings := { Keys := cfg.Mappings.Keys ++ [oldString],
                    Indices := cfg.Mappings.Indices ++ [newString] } })

/-- NewStringMapping (src/main.go:72-81): the string variant; rejects the
empty string, otherwise appends the byte conversions. -/
def NewStringMapping (cfg : replacerConfig) (oldString newString : String) :
    Option Err × replacerConfig :=
  if oldString = "" then
    (some "cannot replace empty string with new value", cfg)
  else
    (none, { cfg with
      Mappings := { Keys := cfg.Mappings.Keys ++ [strBytes oldString],
                    Indices := cfg.Mappings.Indices ++ [strBytes newString] } })

/-- Error injection for Reset (src/main.go:83-100): outcome of the Close,
Stat and OpenFile calls it performs, in that order. -/
structure ResetEnv where
  closeErr : Option Err
  statRes  : Except Err statInfo
  openRes  : Except Err Nat

/-- Reset (src/main.go:83-100): close the working file, re-stat it, reopen
it; only then clear both mapping sequences and refresh FilePerm. On a
reopen failure the File field has already been overwritten (Go assigns the
nil handle), but the Mapping Table is untouched on every error path. -/
def Reset (env : ResetEnv) (cfg : replacerConfig) : Option Err × replacerConfig :=
  match env.closeErr with
  | some e => (some e, cfg)
  | none =>
    match env.statRes with
    | .error e => (some e, cfg)
    | .ok fd =>
      match env.openRes with
      | .error e => (some e, { cfg with File := none })
      | .ok f =>
        (none, { cfg with
          File := some f,
          Mappings := { Keys := [], Indices := [] },
          FilePerm := fd.perm })

/-- Modelled from the spec: the Substituting Reader of §4.1
(`BytesReplacingReader` comes from the external go-corelib/ios dependency
and is not part of this repository). Streaming the whole input through one
reader realises leftmost non-overlapping replacement of `old` by `new`.
`fuel` bounds the recursion; every step consumes at least one input byte,
so `fuel = input.length` computes the full transform. An empty pattern is
never reached (registration rejects it) and is treated as matching nothing. -/
def replaceAllAux (old new : Bytes) : Nat → Bytes → Bytes
  | 0, s => s
  | _ + 1, [] => []
  | fuel + 1, c :: rest =>
    if old ≠ [] ∧ old.isPrefixOf (c :: rest) then
      new ++ replaceAllAux old new fuel (List.drop (old.length - 1) rest)
    else
      c :: replaceAllAux old new fuel rest

/-- Modelled from the spec: the observable effect of streaming `s` through
one Substituting Reader bound to the mapping `(old, new)`. -/
def replaceAll (old new s : Bytes) : Bytes :=
  replaceAllAux old new s.length s

/-- A reader in a Reader Chain (§4.2): either the raw file source, or a
Substituting Reader stacked on an upstream reader. -/
inductive Reader where
  | file : Reader
  | sub (upstream : Reader) (old new : Bytes) : Reader
deriving DecidableEq

/-- NewBytesReplacingReader: constructs a Substituting Reader over an
upstream source (external constructor; here it records chain structure). -/
def NewBytesReplacingReader (upstream : Reader) (oldB newB : Bytes) : Reader :=
  Reader.sub upstream oldB newB

/-- The byte stream a reader produces when the raw file holds `s`. -/
def Reader.apply : Reader → Bytes → Bytes
  | .file, s => s
  | .sub up oldB newB, s => replaceAll oldB newB (Reader.apply up s)

/-- The deferred cleanup closure shared verbatim by both engines
(src/main.go:126-129 and 167-170): given the input and output handles it
closes `input` twice and returns the list of handles closed, in order. -/
def deferredCleanup (input _output : Nat) : List Nat :=
  [input, input]

/-- A file-system step performed by an engine (only completed steps are
recorded in an engine's trace). -/
inductive FsEvent where
  | openFile (p : String)
  | createFile (p : String)
  | copyStream
  | removeFile (p : String)
  | renameFile (src dst : String)
deriving DecidableEq

/-- Error injection and handle identities for one sequential pass
(DoSingleReplace, src/main.go:116-140): the nanosecond timestamp used for
the scratch name, the outcomes of the two opens, of io.CopyBuffer (a copy
failure carries the number of bytes already written to the scratch file
before the error), and of os.Rename. -/
structure PassEnv where
  ts : Nat
  inputHandle : Nat
  outputHandle : Nat
  openInputErr : Option Err
  openOutputErr : Option Err
  copyErr : Option (Nat × Err)
  renameErr : Option Err
deriving DecidableEq

/-- Observable outcome of one DoSingleReplace call. -/
structure SingleResult where
  wrote : Int
  err : Option Err
  cfg : replacerConfig
  content : Bytes
  tmpPath : String
  closed : List Nat
deriving DecidableEq

/-- DoSingleReplace (src/main.go:116-140), the closure run once per mapping
by the sequential engine: build the scratch path in the working file's
directory, open input and scratch, copy through one Substituting Reader,
rename the scratch over the working file, record the new size. Every error
path returns a zero count (a failed copy discards the byte count it was
handed), and the deferred cleanup closes only the input handle, twice. -/
def DoSingleReplace (env : PassEnv) (cfg : replacerConfig) (content : Bytes)
    (oldB newB : Bytes) : SingleResult :=
  let tmpFile := pathJoin (pathDir cfg.FilePath) ("tmp-gosed-" ++ toString env.ts)
  match env.openInputErr with
  | some e => ⟨0, some e, cfg, content, tmpFile, []⟩
  | none =>
    match env.openOutputErr with
    | some e => ⟨0, some e, cfg, content, tmpFile, []⟩
    | none =>
      let closed := deferredCleanup env.inputHandle env.outputHandle
      match env.copyErr with
      | some p => ⟨0, some p.2, cfg, content, tmpFile, closed⟩
      | none =>
        let out := replaceAll oldB newB content
        match env.renameErr with
        | some e => ⟨0, some e, cfg, content, tmpFile, closed⟩
        | none =>
          ⟨(out.length : Int), none, { cfg with FileSize := (out.length : Int) },
            out, tmpFile, closed⟩

/-- Accumulator of the sequential engine's loop over the mapping keys. -/
structure SeqState where
  cfg : replacerConfig
  content : Bytes
  i : Nat
  count : Int
  wrotes : List Int
  tmpPaths : List String
  closed : List Nat
deriving DecidableEq

/-- Observable outcome of DoSequentialReplace: the returned pair
(count, err), the final config and working-file content, the per-pass byte
counts and scratch paths, the handles closed, and whether the loop hit an
out-of-range index into Indices (a Go panic). -/
structure SeqResult where
  count : Int
  err : Option Err
  cfg : replacerConfig
  content : Bytes
  wrotes : List Int
  tmpPaths : List String
  closed : List Nat
  panicked : Bool
deriving DecidableEq

/-- The `for index, key := range Keys` loop of DoSequentialReplace
(src/main.go:141-149): each pass reads `Indices[index]` (out of range is a
panic), runs DoSingleReplace, aborts with the accumulated count on error,
otherwise adds the pass's count and stores it as the new FileSize. -/
def seqLoop (env : Nat → PassEnv) (idxs : List Bytes) :
    List Bytes → SeqState → SeqResult
  | [], st => ⟨st.count, none, st.cfg, st.content, st.wrotes, st.tmpPaths, st.closed, false⟩
  | key :: rest, st =>
    match idxs[st.i]? with
    | none => ⟨st.count, none, st.cfg, st.content, st.wrotes, st.tmpPaths, st.closed, true⟩
    | some idx =>
      let s := DoSingleReplace (env st.i) st.cfg st.content key idx
      match s.err with
      | some e =>
        ⟨st.count, some e, s.cfg, s.content, st.wrotes,
          st.tmpPaths ++ [s.tmpPath], st.closed ++ s.closed, false⟩
      | none =>
        seqLoop env idxs rest
          { cfg := { s.cfg with FileSize := s.wrote }, content := s.content,
            i := st.i + 1, count := st.count + s.wrote,
            wrotes := st.wrotes ++ [s.wrote],
            tmpPaths := st.tmpPaths ++ [s.tmpPath],
            closed := st.closed ++ s.closed }

/-- The epilogue of DoSequentialReplace (src/main.go:150-152): when the
loop finished without error (and without panicking), both mapping
sequences are truncated to empty; otherwise the result passes through. -/
def finishSeq (r : SeqResult) : SeqResult :=
  if r.panicked then r
  else
    match r.err with
    | some _ => r
    | none => { r with cfg := { r.cfg with Mappings := { Keys := [], Indices := [] } } }

/-- DoSequentialReplace (src/main.go:115-154): one pass per mapping in
registration order; on success both mapping sequences are cleared. -/
def DoSequentialReplace (env : Nat → PassEnv) (cfg : replacerConfig)
    (content : Bytes) : SeqResult :=
  finishSeq (seqLoop env cfg.Mappings.Indices cfg.Mappings.Keys
    { cfg := cfg, content := content, i := 0, count := 0,
      wrotes := [], tmpPaths := [], closed := [] })

/-- Error injection and handle identities for DoChainReplace
(src/main.go:156-193). -/
structure ChainEnv where
  ts : Nat
  inputHandle : Nat
  outputHandle : Nat
  openInputErr : Option Err
  openOutputErr : Option Err
  copyErr : Option (Nat × Err)
  removeErr : Option Err
  renameErr : Option Err
deriving DecidableEq

/-- The chain-building of DoChainReplace (src/main.go:171-177): seed a
reader from `Keys[0]` and `Indices[0]` over the raw file, then wrap one
reader per remaining key, reading `Indices[index]` by position. `none`
models the index-out-of-range panic of the unguarded accesses. -/
def chainLoop (idxs : List Bytes) : Reader → List Bytes → Nat → Option Reader
  | r, [], _ => some r
  | r, key :: rest, i =>
    match idxs[i]? with
    | none => none
    | some idx => chainLoop idxs (NewBytesReplacingReader r key idx) rest (i + 1)

/-- Builds the full Reader Chain exactly as DoChainReplace does, starting
from the unguarded `Keys[0]` / `Indices[0]` accesses. -/
def buildChain (keys idxs : List Bytes) : Option Reader :=
  match keys[0]?, idxs[0]? with
  | some k0, some i0 =>
    chainLoop idxs (NewBytesReplacingReader Reader.file k0 i0) (keys.drop 1) 1
  | _, _ => none

/-- Observable outcome of DoChainReplace. `fileContent` is the content at
the working file's path afterwards (`none`: the remove ran but the rename
failed, so no file is left there). When `panicked` is true the Go function
never returned; only `closed` (the deferred cleanup still runs while the
panic unwinds) is meaningful besides the flag. -/
structure ChainResult where
  wrote : Int
  err : Option Err
  cfg : replacerConfig
  fileContent : Option Bytes
  chain : Option Reader
  events : List FsEvent
  tmpPath : String
  closed : List Nat
  panicked : Bool
deriving DecidableEq

/-- DoChainReplace (src/main.go:156-193): scratch name built with no
directory component, open input and scratch, build the chain over all
mappings (unguarded indexing), one copy through the chain, then os.Remove
of the working file followed by os.Rename of the scratch into place; on
full success record the size and clear both mapping sequences. Every error
path returns a zero count. -/
def DoChainReplace (env : ChainEnv) (cfg : replacerConfig) (content : Bytes) :
    ChainResult :=
  let tmpfile := "tmp-gosed-" ++ toString env.ts
  match env.openInputErr with
  | some e => ⟨0, some e, cfg, some content, none, [], tmpfile, [], false⟩
  | none =>
    match env.openOutputErr with
    | some e =>
      ⟨0, some e, cfg, some content, none, [.openFile cfg.FilePath], tmpfile, [], false⟩
    | none =>
      let closed := deferredCleanup env.inputHandle env.outputHandle
      let ev2 : List FsEvent := [.openFile cfg.FilePath, .createFile tmpfile]
      match buildChain cfg.Mappings.Keys cfg.Mappings.Indices with
      | none => ⟨0, none, cfg, some content, none, ev2, tmpfile, closed, true⟩
      | some chain =>
        match env.copyErr with
        | some p =>
          ⟨0, some p.2, cfg, some content, some chain, ev2, tmpfile, closed, false⟩
        | none =>
          let out := chain.apply content
          let ev3 := ev2 ++ [FsEvent.copyStream]
          match env.removeErr with
          | some e =>
            ⟨0, some e, cfg, some content, some chain, ev3, tmpfile, closed, false⟩
          | none =>
            let ev4 := ev3 ++ [FsEvent.removeFile cfg.FilePath]
            match env.renameErr with
            | some e =>
              ⟨0, some e, cfg, none, some chain, ev4, tmpfile, closed, false⟩
            | none =>
              ⟨(out.length : Int), none,
                { cfg with FileSize := (out.length : Int),
                           Mappings := { Keys := [], Indices := [] } },
                some out, some chain,
                ev4 ++ [FsEvent.renameFile tmpfile cfg.FilePath],
                tmpfile, closed, false⟩

/-- Specification-side description of the sequential engine's passes: the
byte count each per-mapping pass writes, threading the transformed content
from one pass to the next. -/
def passOutputs : List (Bytes × Bytes) → Bytes → List Int
  | [], _ => []
  | (o, n) :: rest, s =>
    ((replaceAll o n s).length : Int) :: passOutputs rest (replaceAll o n s)

/-- Specification-side description of the Reader Chain over a mapping list
in registration order: reader 0 reads the raw file, reader k reads
reader k-1. -/
def foldChain (ms : List (Bytes × Bytes)) : Reader :=
  ms.foldl (fun r p => Reader.sub r p.1 p.2) Reader.file

/-- The parallel-sequence invariant of the Mapping Table. -/
def mappingsWf (m : replacerMappings) : Prop :=
  m.Keys.length = m.Indices.length

instance (m : replacerMappings) : Decidable (mappingsWf m) := by
  unfold mappingsWf; infer_instance

/-- A pass environment that injects no fault. -/
def cleanPass (p : PassEnv) : Prop :=
  p.openInputErr = none ∧ p.openOutputErr = none ∧ p.copyErr = none ∧
    p.renameErr = none

instance (p : PassEnv) : Decidable (cleanPass p) := by
  unfold cleanPass; infer_instance

/-- A chain environment that injects no fault. -/
def cleanChain (e : ChainEnv) : Prop :=
  e.openInputErr = none ∧ e.openOutputErr = none ∧ e.copyErr = none ∧
    e.removeErr = none ∧ e.renameErr = none

instance (e : ChainEnv) : Decidable (cleanChain e) := by
  unfold cleanChain; infer_instance

/-- A sample config over a working file `a/b.txt` with the given mapping
sequences, used to instantiate the theorems on concrete inputs. -/
def sampleCfg (ks vs : List Bytes) : replacerConfig :=
  { File := some 1, FilePath := "a/b.txt", FileSize := 3, FilePerm := 420,
    Mappings := { Keys := ks, Indices := vs } }

/-- A fault-free chain environment. -/
def sampleChainEnv : ChainEnv :=
  { ts := 1, inputHandle := 10, outputHandle := 11, openInputErr := none,
    openOutputErr := none, copyErr := none, removeErr := none, renameErr := none }

/-- A fault-free pass environment. -/
def samplePassEnv : PassEnv :=
  { ts := 7, inputHandle := 10, outputHandle := 11, openInputErr := none,
    openOutputErr := none, copyErr := none, renameErr := none }

/-- A pass environment whose io.CopyBuffer call fails after 5 bytes have
already been written to the scratch file. -/
def samplePassEnvCopyFail : PassEnv :=
  { ts := 7, inputHandle := 10, outputHandle := 11, openInputErr := none,
    openOutputErr := none, copyErr := some (5, "disk full"), renameErr := none }

/-- A fault-free Reset environment. -/
def sampleResetEnv : ResetEnv :=
  { closeErr := none, statRes := .ok { size := 3, perm := 420 },
    openRes := .ok 2 }

/-- A Reset environment whose reopen fails. -/
def sampleResetEnvOpenFail : ResetEnv :=
  { closeErr := none, statRes := .ok { size := 3, perm := 420 },
    openRes := .error "permission denied" }

/-- A chain environment whose final os.Rename call fails. -/
def sampleChainEnvRenameFail : ChainEnv :=
  { ts := 1, inputHandle := 10, outputHandle := 11, openInputErr := none,
    openOutputErr := none, copyErr := none, removeErr := none,
    renameErr := some "cross-device link" }

theorem DoSingleReplace_tmpPath (env : PassEnv) (cfg : replacerConfig)
    (content oldB newB : Bytes) :
    (DoSingleReplace env cfg content oldB newB).tmpPath =
      pathJoin (pathDir cfg.FilePath) ("tmp-gosed-" ++ toString env.ts) := by
  obtain ⟨ts, ih, oh, oi, oo, ce, re⟩ := env
  cases oi <;> cases oo <;> cases ce <;> cases re <;> simp [DoSingleReplace]

theorem DoSingleReplace_Mappings (env : PassEnv) (cfg : replacerConfig)
    (content oldB newB : Bytes) :
    (DoSingleReplace env cfg content oldB newB).cfg.Mappings = cfg.Mappings := by
  obtain ⟨ts, ih, oh, oi, oo, ce, re⟩ := env
  cases oi <;> cases oo <;> cases ce <;> cases re <;> simp [DoSingleReplace]

theorem DoSingleReplace_FilePath (env : PassEnv) (cfg : replacerConfig)
    (content oldB newB : Bytes) :
    (DoSingleReplace env cfg content oldB newB).cfg.FilePath = cfg.FilePath := by
  obtain ⟨ts, ih, oh, oi, oo, ce, re⟩ := env
  cases oi <;> cases oo <;> cases ce <;> cases re <;> simp [DoSingleReplace]

theorem DoSingleReplace_cfg_of_err (env : PassEnv) (cfg : replacerConfig)
    (content oldB newB : Bytes) :
    (DoSingleReplace env cfg content oldB newB).err.isSome = true →
      (DoSingleReplace env cfg content oldB newB).cfg = cfg := by
  obtain ⟨ts, ih, oh, oi, oo, ce, re⟩ := env
  cases oi <;> cases oo <;> cases ce <;> cases re <;> simp [DoSingleReplace]

theorem DoSingleReplace_closed (env : PassEnv) (cfg : replacerConfig)
    (content oldB newB : Bytes) (h1 : env.openInputErr = none)
    (h2 : env.openOutputErr = none) :
    (DoSingleReplace env cfg content oldB newB).closed =
      deferredCleanup env.inputHandle env.outputHandle := by
  obtain ⟨ts, ih, oh, oi, oo, ce, re⟩ := env
  simp only at h1 h2
  subst h1; subst h2
  cases ce <;> cases re <;> simp [DoSingleReplace]

theorem DoSingleReplace_clean (env : PassEnv) (cfg : replacerConfig)
    (content oldB newB : Bytes) (hc : cleanPass env) :
    DoSingleReplace env cfg content oldB newB =
      ⟨((replaceAll oldB newB content).length : Int), none,
        { cfg with FileSize := ((replaceAll oldB newB content).length : Int) },
        replaceAll oldB newB content,
        pathJoin (pathDir cfg.FilePath) ("tmp-gosed-" ++ toString env.ts),
        deferredCleanup env.inputHandle env.outputHandle⟩ := by
  obtain ⟨h1, h2, h3, h4⟩ := hc
  simp [DoSingleReplace, h1, h2, h3, h4]

theorem seqLoop_Mappings (env : Nat → PassEnv) (idxs : List Bytes)
    (keys : List Bytes) : ∀ st : SeqState,
    (seqLoop env idxs keys st).cfg.Mappings = st.cfg.Mappings := by
  induction keys with
  | nil => intro st; rfl
  | cons key rest ih =>
    intro st
    simp only [seqLoop]
    cases hidx : idxs[st.i]? with
    | none => rfl
    | some idx =>
      cases hs : (DoSingleReplace (env st.i) st.cfg st.content key idx).err with
      | some e => simp [hs, DoSingleReplace_Mappings]
      | none =>
        simp only [hs]
        rw [ih]
        simp [DoSingleReplace_Mappings]

theorem seqLoop_FilePath (env : Nat → PassEnv) (idxs : List Bytes)
    (keys : List Bytes) : ∀ st : SeqState,
    (seqLoop env idxs keys st).cfg.FilePath = st.cfg.FilePath := by
  induction keys with
  | nil => intro st; rfl
  | cons key rest ih =>
    intro st
    simp only [seqLoop]
    cases hidx : idxs[st.i]? with
    | none => rfl
    | some idx =>
      cases hs : (DoSingleReplace (env st.i) st.cfg st.content key idx).err with
      | some e => simp [hs, DoSingleReplace_FilePath]
      | none =>
        simp only [hs]
        rw [ih]
        simp [DoSingleReplace_FilePath]

theorem seqLoop_count_sum (env : Nat → PassEnv) (idxs : List Bytes)
    (keys : List Bytes) : ∀ st : SeqState, st.count = st.wrotes.sum →
    (seqLoop env idxs keys st).count = (seqLoop env idxs keys st).wrotes.sum := by
  induction keys with
  | nil => intro st h; exact h
  | cons key rest ih =>
    intro st h
    simp only [seqLoop]
    cases hidx : idxs[st.i]? with
    | none => simpa using h
    | some idx =>
      cases hs : (DoSingleReplace (env st.i) st.cfg st.content key idx).err with
      | some e => simpa [hs] using h
      | none =>
        simp only [hs]
        exact ih _ (by simp [h, List.sum_append])

theorem seqLoop_FileSize (env : Nat → PassEnv) (idxs : List Bytes)
    (keys : List Bytes) (s0 : Int) : ∀ st : SeqState,
    st.cfg.FileSize = st.wrotes.getLastD s0 →
    (seqLoop env idxs keys st).cfg.FileSize =
      (seqLoop env idxs keys st).wrotes.getLastD s0 := by
  induction keys with
  | nil => intro st h; exact h
  | cons key rest ih =>
    intro st h
    simp only [seqLoop]
    cases hidx : idxs[st.i]? with
    | none => simpa using h
    | some idx =>
      cases hs : (DoSingleReplace (env st.i) st.cfg st.content key idx).err with
      | some e =>
        have hcfg := DoSingleReplace_cfg_of_err (env st.i) st.cfg st.content key idx
          (by simp [hs])
        simp only [hs]
        rw [hcfg]
        exact h
      | none =>
        simp only [hs]
        exact ih _ (by simp [List.getLastD_concat])

theorem seqLoop_tmpPaths (env : Nat → PassEnv) (idxs : List Bytes)
    (keys : List Bytes) : ∀ st : SeqState,
    ∀ t ∈ (seqLoop env idxs keys st).tmpPaths,
      t ∈ st.tmpPaths ∨
        ∃ ts : Nat,
          t = pathJoin (pathDir st.cfg.FilePath) ("tmp-gosed-" ++ toString ts) := by
  induction keys with
  | nil => intro st t ht; exact Or.inl ht
  | cons key rest ih =>
    intro st
    simp only [seqLoop]
    cases hidx : idxs[st.i]? with
    | none => intro t ht; exact Or.inl ht
    | some idx =>
      cases hs : (DoSingleReplace (env st.i) st.cfg st.content key idx).err with
      | some e =>
        simp only [hs]
        intro t ht
        simp only [List.mem_append, List.mem_singleton] at ht
        rcases ht with hin | hin
        · exact Or.inl hin
        · refine Or.inr ⟨(env st.i).ts, ?_⟩
          rw [hin, DoSingleReplace_tmpPath]
      | none =>
        simp only [hs]
        intro t ht
        rcases ih _ t ht with hin | ⟨ts, hts⟩
        · simp only [List.mem_append, List.mem_singleton] at hin
          rcases hin with hin | hin
          · exact Or.inl hin
          · refine Or.inr ⟨(env st.i).ts, ?_⟩
            rw [hin, DoSingleReplace_tmpPath]
        · refine Or.inr ⟨ts, ?_⟩
          rw [hts]
          simp [DoSingleReplace_FilePath]

theorem chainLoop_eq (idxs : List Bytes) (krest : List Bytes) :
    ∀ (i : Nat) (r : Reader) (irest : List Bytes), idxs.drop i = irest →
      krest.length ≤ irest.length →
      chainLoop idxs r krest i =
        some (krest.zip irest |>.foldl (fun a p => Reader.sub a p.1 p.2) r) := by
  induction krest with
  | nil => intro i r irest _ _; rfl
  | cons key kr ih =>
    intro i r irest hdrop hlen
    cases irest with
    | nil => simp at hlen
    | cons x ir =>
      have hx : idxs[i]? = some x := by
        have h0 : (idxs.drop i)[0]? = some x := by rw [hdrop]; simp
        simpa using h0
      have hdrop' : idxs.drop (i + 1) = ir := by
        have : idxs.drop (i + 1) = (idxs.drop i).drop 1 := by
          rw [List.drop_drop]
        rw [this, hdrop]
        rfl
      simp only [chainLoop, hx]
      rw [ih (i + 1) (NewBytesReplacingReader r key x) ir hdrop' (by simpa using hlen)]
      rfl

theorem buildChain_eq (keys idxs : List Bytes) (hk : keys ≠ [])
    (hlen : keys.length ≤ idxs.length) :
    buildChain keys idxs = some (foldChain (keys.zip idxs)) := by
  cases keys with
  | nil => exact absurd rfl hk
  | cons k0 kr =>
    cases idxs with
    | nil => simp at hlen
    | cons x0 ir =>
      have hdrop : (x0 :: ir).drop 1 = ir := rfl
      simp only [buildChain]
      rw [show ((k0 :: kr) : List Bytes)[0]? = some k0 by simp,
        show ((x0 :: ir) : List Bytes)[0]? = some x0 by simp]
      simp only [List.drop_one, List.tail_cons]
      rw [chainLoop_eq (x0 :: ir) kr 1 (NewBytesReplacingReader Reader.file k0 x0) ir
        hdrop (by simpa using hlen)]
      rfl

theorem buildChain_nil (idxs : List Bytes) : buildChain [] idxs = none := rfl

theorem DoChainReplace_clean (env : ChainEnv) (cfg : replacerConfig)
    (content : Bytes) (hc : cleanChain env) (hk : cfg.Mappings.Keys ≠ [])
    (hw : mappingsWf cfg.Mappings) :
    DoChainReplace env cfg content =
      ⟨(((foldChain (cfg.Mappings.Keys.zip cfg.Mappings.Indices)).apply content).length : Int),
        none,
        { cfg with
          FileSize :=
            (((foldChain (cfg.Mappings.Keys.zip cfg.Mappings.Indices)).apply content).length : Int),
          Mappings := { Keys := [], Indices := [] } },
        some ((foldChain (cfg.Mappings.Keys.zip cfg.Mappings.Indices)).apply content),
        some (foldChain (cfg.Mappings.Keys.zip cfg.Mappings.Indices)),
        [FsEvent.openFile cfg.FilePath,
         FsEvent.createFile ("tmp-gosed-" ++ toString env.ts),
         FsEvent.copyStream,
         FsEvent.removeFile cfg.FilePath,
         FsEvent.renameFile ("tmp-gosed-" ++ toString env.ts) cfg.FilePath],
        "tmp-gosed-" ++ toString env.ts,
        deferredCleanup env.inputHandle env.outputHandle, false⟩ := by
  obtain ⟨h1, h2, h3, h4, h5⟩ := hc
  have hb := buildChain_eq cfg.Mappings.Keys cfg.Mappings.Indices hk (le_of_eq hw)
  obtain ⟨ts, ih, oh, oi, oo, ce, re, rn⟩ := env
  simp only at h1 h2 h3 h4 h5
  subst h1; subst h2; subst h3; subst h4; subst h5
  simp [DoChainReplace, hb]

theorem DoChainReplace_tmpPath (env : ChainEnv) (cfg : replacerConfig)
    (content : Bytes) :
    (DoChainReplace env cfg content).tmpPath = "tmp-gosed-" ++ toString env.ts := by
  obtain ⟨ts, ih, oh, oi, oo, ce, re, rn⟩ := env
  cases oi <;> cases oo <;>
    cases hb : buildChain cfg.Mappings.Keys cfg.Mappings.Indices <;>
    cases ce <;> cases re <;> cases rn <;> simp [DoChainReplace, hb]

theorem DoChainReplace_err_wrote (env : ChainEnv) (cfg : replacerConfig)
    (content : Bytes) :
    (DoChainReplace env cfg content).err.isSome = true →
      (DoChainReplace env cfg content).wrote = 0 := by
  obtain ⟨ts, ih, oh, oi, oo, ce, re, rn⟩ := env
  cases oi <;> cases oo <;>
    cases hb : buildChain cfg.Mappings.Keys cfg.Mappings.Indices <;>
    cases ce <;> cases re <;> cases rn <;> simp [DoChainReplace, hb]

theorem DoChainReplace_success_clears (env : ChainEnv) (cfg : replacerConfig)
    (content : Bytes) :
    (DoChainReplace env cfg content).panicked = false →
      (DoChainReplace env cfg content).err = none →
      (DoChainReplace env cfg content).cfg.Mappings = { Keys := [], Indices := [] } := by
  obtain ⟨ts, ih, oh, oi, oo, ce, re, rn⟩ := env
  cases oi <;> cases oo <;>
    cases hb : buildChain cfg.Mappings.Keys cfg.Mappings.Indices <;>
    cases ce <;> cases re <;> cases rn <;> simp [DoChainReplace, hb]

theorem DoChainReplace_Mappings_cases (env : ChainEnv) (cfg : replacerConfig)
    (content : Bytes) :
    (DoChainReplace env cfg content).cfg.Mappings = cfg.Mappings ∨
      (DoChainReplace env cfg content).cfg.Mappings = { Keys := [], Indices := [] } := by
  obtain ⟨ts, ih, oh, oi, oo, ce, re, rn⟩ := env
  cases oi <;> cases oo <;>
    cases hb : buildChain cfg.Mappings.Keys cfg.Mappings.Indices <;>
    cases ce <;> cases re <;> cases rn <;> simp [DoChainReplace, hb]

theorem finishSeq_count (r : SeqResult) : (finishSeq r).count = r.count := by
  obtain ⟨c, e, cf, co, w, t, cl, p⟩ := r
  cases p <;> cases e <;> simp [finishSeq]

theorem finishSeq_err (r : SeqResult) : (finishSeq r).err = r.err := by
  obtain ⟨c, e, cf, co, w, t, cl, p⟩ := r
  cases p <;> cases e <;> simp [finishSeq]

theorem finishSeq_panicked (r : SeqResult) : (finishSeq r).panicked = r.panicked := by
  obtain ⟨c, e, cf, co, w, t, cl, p⟩ := r
  cases p <;> cases e <;> simp [finishSeq]

theorem finishSeq_wrotes (r : SeqResult) : (finishSeq r).wrotes = r.wrotes := by
  obtain ⟨c, e, cf, co, w, t, cl, p⟩ := r
  cases p <;> cases e <;> simp [finishSeq]

theorem finishSeq_tmpPaths (r : SeqResult) : (finishSeq r).tmpPaths = r.tmpPaths := by
  obtain ⟨c, e, cf, co, w, t, cl, p⟩ := r
  cases p <;> cases e <;> simp [finishSeq]

theorem finishSeq_FileSize (r : SeqResult) :
    (finishSeq r).cfg.FileSize = r.cfg.FileSize := by
  obtain ⟨c, e, cf, co, w, t, cl, p⟩ := r
  cases p <;> cases e <;> simp [finishSeq]

theorem finishSeq_Mappings_cases (r : SeqResult) :
    (finishSeq r).cfg.Mappings = r.cfg.Mappings ∨
      (finishSeq r).cfg.Mappings = { Keys := [], Indices := [] } := by
  obtain ⟨c, e, cf, co, w, t, cl, p⟩ := r
  cases p <;> cases e <;> simp [finishSeq]

theorem finishSeq_success_Mappings (r : SeqResult) (hp : r.panicked = false)
    (he : r.err = none) :
    (finishSeq r).cfg.Mappings = { Keys := [], Indices := [] } := by
  obtain ⟨c, e, cf, co, w, t, cl, p⟩ := r
  simp only at hp he
  subst hp; subst he
  simp [finishSeq]

theorem seqLoop_clean (env : Nat → PassEnv) (idxs : List Bytes)
    (hc : ∀ j, cleanPass (env j)) (keys : List Bytes) :
    ∀ (st : SeqState) (irest : List Bytes), idxs.drop st.i = irest →
      keys.length ≤ irest.length →
      (seqLoop env idxs keys st).err = none ∧
      (seqLoop env idxs keys st).panicked = false ∧
      (seqLoop env idxs keys st).wrotes =
        st.wrotes ++ passOutputs (keys.zip irest) st.content := by
  induction keys with
  | nil =>
    intro st irest _ _
    exact ⟨rfl, rfl, by simp [seqLoop, passOutputs]⟩
  | cons key kr ih =>
    intro st irest hdrop hlen
    cases irest with
    | nil => simp at hlen
    | cons x ir =>
      have hx : idxs[st.i]? = some x := by
        have h0 : (idxs.drop st.i)[0]? = some x := by rw [hdrop]; simp
        simpa using h0
      have hdrop' : idxs.drop (st.i + 1) = ir := by
        have h2 : idxs.drop (st.i + 1) = (idxs.drop st.i).drop 1 := by
          rw [List.drop_drop]
        rw [h2, hdrop]
        rfl
      have hD := DoSingleReplace_clean (env st.i) st.cfg st.content key x (hc st.i)
      simp only [seqLoop, hx, hD]
      obtain ⟨he, hp, hwr⟩ := ih
        { cfg := { st.cfg with
            FileSize := ((replaceAll key x st.content).length : Int) },
          content := replaceAll key x st.content, i := st.i + 1,
          count := st.count + ((replaceAll key x st.content).length : Int),
          wrotes := st.wrotes ++ [((replaceAll key x st.content).length : Int)],
          tmpPaths := st.tmpPaths ++
            [pathJoin (pathDir st.cfg.FilePath) ("tmp-gosed-" ++ toString (env st.i).ts)],
          closed := st.closed ++ deferredCleanup (env st.i).inputHandle (env st.i).outputHandle }
        ir hdrop' (by simpa using hlen)
      refine ⟨he, hp, ?_⟩
      rw [hwr]
      simp [passOutputs, List.zip_cons_cons, List.zip]

theorem DoSequentialReplace_clean (env : Nat → PassEnv) (cfg : replacerConfig)
    (content : Bytes) (hc : ∀ j, cleanPass (env j)) (hw : mappingsWf cfg.Mappings) :
    (DoSequentialReplace env cfg content).err = none ∧
    (DoSequentialReplace env cfg content).panicked = false ∧
    (DoSequentialReplace env cfg content).wrotes =
      passOutputs (cfg.Mappings.Keys.zip cfg.Mappings.Indices) content := by
  obtain ⟨he, hp, hwr⟩ := seqLoop_clean env cfg.Mappings.Indices hc cfg.Mappings.Keys
    { cfg := cfg, content := content, i := 0, count := 0,
      wrotes := [], tmpPaths := [], closed := [] }
    cfg.Mappings.Indices (by simp) (le_of_eq hw)
  unfold DoSequentialReplace
  rw [finishSeq_err, finishSeq_panicked, finishSeq_wrotes]
  exact ⟨he, hp, by simpa using hwr⟩

theorem DoSequentialReplace_count_sum (env : Nat → PassEnv) (cfg : replacerConfig)
    (content : Bytes) :
    (DoSequentialReplace env cfg content).count =
      (DoSequentialReplace env cfg content).wrotes.sum := by
  unfold DoSequentialReplace
  rw [finishSeq_count, finishSeq_wrotes]
  exact seqLoop_count_sum env cfg.Mappings.Indices cfg.Mappings.Keys _ (by simp)

theorem DoChainReplace_closed (env : ChainEnv) (cfg : replacerConfig)
    (content : Bytes) (h1 : env.openInputErr = none)
    (h2 : env.openOutputErr = none) :
    (DoChainReplace env cfg content).closed =
      deferredCleanup env.inputHandle env.outputHandle := by
  obtain ⟨ts, ih, oh, oi, oo, ce, re, rn⟩ := env
  simp only at h1 h2
  subst h1; subst h2
  cases hb : buildChain cfg.Mappings.Keys cfg.Mappings.Indices <;>
    cases ce <;> cases re <;> cases rn <;> simp [DoChainReplace, hb]

theorem DoSequentialReplace_Mappings_cases (env : Nat → PassEnv)
    (cfg : replacerConfig) (content : Bytes) :
    (DoSequentialReplace env cfg content).cfg.Mappings = cfg.Mappings ∨
      (DoSequentialReplace env cfg content).cfg.Mappings =
        { Keys := [], Indices := [] } := by
  unfold DoSequentialReplace
  rcases finishSeq_Mappings_cases (seqLoop env cfg.Mappings.Indices cfg.Mappings.Keys
      { cfg := cfg, content := content, i := 0, count := 0,
        wrotes := [], tmpPaths := [], closed := [] }) with h | h
  · exact Or.inl (h.trans
      (seqLoop_Mappings env cfg.Mappings.Indices cfg.Mappings.Keys _))
  · exact Or.inr h

theorem DoSequentialReplace_FileSize (env : Nat → PassEnv) (cfg : replacerConfig)
    (content : Bytes) :
    (DoSequentialReplace env cfg content).cfg.FileSize =
      (DoSequentialReplace env cfg content).wrotes.getLastD cfg.FileSize := by
  unfold DoSequentialReplace
  rw [finishSeq_FileSize, finishSeq_wrotes]
  exact seqLoop_FileSize env cfg.Mappings.Indices cfg.Mappings.Keys cfg.FileSize _ rfl

/-- Claim C1: invoking the chained replace with zero registered mappings is
an error: with at least one mapping registered the unguarded accesses
Keys[0] and Indices[0] are in bounds and no panic occurs, while with zero
mappings (and the two opens succeeding, so that control reaches the
indexing) the access is out of bounds — an index-out-of-range panic rather
than a guarded error return. -/
theorem claim_chained_zero_mappings_unguarded (env : ChainEnv)
    (cfg : replacerConfig) (content : Bytes) :
    (env.openInputErr = none → env.openOutputErr = none →
      cfg.Mappings.Keys = [] → (DoChainReplace env cfg content).panicked = true) ∧
    (cfg.Mappings.Keys ≠ [] → mappingsWf cfg.Mappings →
      (DoChainReplace env cfg content).panicked = false) := by
  constructor
  · intro h1 h2 hk
    obtain ⟨ts, ih, oh, oi, oo, ce, re, rn⟩ := env
    simp only at h1 h2
    subst h1; subst h2
    simp [DoChainReplace, hk, buildChain_nil]
  · intro hk hw
    have hb := buildChain_eq cfg.Mappings.Keys cfg.Mappings.Indices hk (le_of_eq hw)
    obtain ⟨ts, ih, oh, oi, oo, ce, re, rn⟩ := env
    cases oi <;> cases oo <;> cases ce <;> cases re <;> cases rn <;>
      simp [DoChainReplace, hb]

/-- Witness for C1: a fault-free run with no mapping panics; a run with one
mapping registered does not. -/
theorem claim_chained_zero_mappings_unguarded_witness :
    (sampleChainEnv.openInputErr = none ∧ sampleChainEnv.openOutputErr = none ∧
      (sampleCfg [] []).Mappings.Keys = [] ∧
      (DoChainReplace sampleChainEnv (sampleCfg [] []) [1, 2]).panicked = true) ∧
    ((sampleCfg [[1]] [[2]]).Mappings.Keys ≠ [] ∧
      mappingsWf (sampleCfg [[1]] [[2]]).Mappings ∧
      (DoChainReplace sampleChainEnv (sampleCfg [[1]] [[2]]) [1, 2]).panicked = false) :=
  ⟨⟨rfl, rfl, rfl,
    (claim_chained_zero_mappings_unguarded sampleChainEnv (sampleCfg [] []) [1, 2]).1
      rfl rfl rfl⟩,
   ⟨by decide, by decide,
    (claim_chained_zero_mappings_unguarded sampleChainEnv (sampleCfg [[1]] [[2]]) [1, 2]).2
      (by decide) (by decide)⟩⟩

/-- Claim C4: in both engines the deferred cleanup closes the input handle
twice and never closes the output handle: the closure closes exactly
[input, input], and both engines' runs (once both opens succeeded) record
exactly that closure's closes. -/
theorem claim_double_close (i o : Nat) (env : PassEnv) (cenv : ChainEnv)
    (cfg : replacerConfig) (content oldB newB : Bytes) :
    deferredCleanup i o = [i, i] ∧
    (deferredCleanup i o).count i = 2 ∧
    (o ≠ i → o ∉ deferredCleanup i o) ∧
    (env.openInputErr = none → env.openOutputErr = none →
      (DoSingleReplace env cfg content oldB newB).closed =
        deferredCleanup env.inputHandle env.outputHandle) ∧
    (cenv.openInputErr = none → cenv.openOutputErr = none →
      (DoChainReplace cenv cfg content).closed =
        deferredCleanup cenv.inputHandle cenv.outputHandle) := by
  refine ⟨rfl, ?_, ?_, DoSingleReplace_closed env cfg content oldB newB,
    DoChainReplace_closed cenv cfg content⟩
  · simp [deferredCleanup]
  · intro h
    simp [deferredCleanup, h]

/-- Witness for C4: with input handle 10 and output handle 11, both engines
close handle 10 twice and never close handle 11. -/
theorem claim_double_close_witness :
    deferredCleanup 10 11 = [10, 10] ∧
    (deferredCleanup 10 11).count 10 = 2 ∧
    ((11 : Nat) ≠ 10 ∧ 11 ∉ deferredCleanup 10 11) ∧
    (DoSingleReplace samplePassEnv (sampleCfg [[1]] [[2]]) [1] [1] [2]).closed =
      deferredCleanup samplePassEnv.inputHandle samplePassEnv.outputHandle ∧
    (DoChainReplace sampleChainEnv (sampleCfg [[1]] [[2]]) [1]).closed =
      deferredCleanup sampleChainEnv.inputHandle sampleChainEnv.outputHandle :=
  ⟨(claim_double_close 10 11 samplePassEnv sampleChainEnv (sampleCfg [[1]] [[2]]) [1] [1] [2]).1,
   (claim_double_close 10 11 samplePassEnv sampleChainEnv (sampleCfg [[1]] [[2]]) [1] [1] [2]).2.1,
   ⟨by decide,
    (claim_double_close 10 11 samplePassEnv sampleChainEnv (sampleCfg [[1]] [[2]]) [1] [1] [2]).2.2.1
      (by decide)⟩,
   (claim_double_close 10 11 samplePassEnv sampleChainEnv (sampleCfg [[1]] [[2]]) [1] [1] [2]).2.2.2.1
     rfl rfl,
   (claim_double_close 10 11 samplePassEnv sampleChainEnv (sampleCfg [[1]] [[2]]) [1] [1] [2]).2.2.2.2
     rfl rfl⟩

/-- Claim C6: registering a mapping whose old pattern is empty fails with
the InvalidMapping error and leaves the Mapping Table unchanged, while a
non-empty old pattern succeeds and appends the pair to the two parallel
sequences — for both the byte-slice and the string registration. -/
theorem claim_empty_pattern_rejection (cfg : replacerConfig)
    (oldB newB : Bytes) (os ns : String) :
    (oldB = [] →
      NewMapping cfg oldB newB =
        (some "cannot replace empty string with new value", cfg)) ∧
    (oldB ≠ [] →
      NewMapping cfg oldB newB =
        (none, { cfg with Mappings :=
          { Keys := cfg.Mappings.Keys ++ [oldB],
            Indices := cfg.Mappings.Indices ++ [newB] } })) ∧
    (os = "" →
      NewStringMapping cfg os ns =
        (some "cannot replace empty string with new value", cfg)) ∧
    (os ≠ "" →
      NewStringMapping cfg os ns =
        (none, { cfg with Mappings :=
          { Keys := cfg.Mappings.Keys ++ [strBytes os],
            Indices := cfg.Mappings.Indices ++ [strBytes ns] } })) := by
  refine ⟨?_, ?_, ?_, ?_⟩
  · intro h; subst h; simp [NewMapping]
  · intro h; simp [NewMapping, List.length_eq_zero, h]
  · intro h; subst h; simp [NewStringMapping]
  · intro h; simp [NewStringMapping, h]

/-- Witness for C6: concrete rejected and accepted registrations. -/
theorem claim_empty_pattern_rejection_witness :
    NewMapping (sampleCfg [] []) [] [2] =
      (some "cannot replace empty string with new value", sampleCfg [] []) ∧
    NewMapping (sampleCfg [] []) [1] [2] =
      (none, { sampleCfg [] [] with Mappings :=
        { Keys := (sampleCfg [] []).Mappings.Keys ++ [[1]],
          Indices := (sampleCfg [] []).Mappings.Indices ++ [[2]] } }) ∧
    NewStringMapping (sampleCfg [] []) "" "y" =
      (some "cannot replace empty string with new value", sampleCfg [] []) ∧
    NewStringMapping (sampleCfg [] []) "x" "y" =
      (none, { sampleCfg [] [] with Mappings :=
        { Keys := (sampleCfg [] []).Mappings.Keys ++ [strBytes "x"],
          Indices := (sampleCfg [] []).Mappings.Indices ++ [strBytes "y"] } }) :=
  ⟨(claim_empty_pattern_rejection (sampleCfg [] []) [] [2] "" "y").1 rfl,
   (claim_empty_pattern_rejection (sampleCfg [] []) [1] [2] "" "y").2.1 (by decide),
   (claim_empty_pattern_rejection (sampleCfg [] []) [] [2] "" "y").2.2.1 rfl,
   (claim_empty_pattern_rejection (sampleCfg [] []) [] [2] "x" "y").2.2.2 (by decide)⟩

/-- Claim C8: the two parallel sequences of the Mapping Table always have
equal length, and every operation on a Replacer preserves this invariant. -/
theorem claim_parallel_lengths_invariant (cfg : replacerConfig)
    (oldB newB : Bytes) (os ns : String) (renv : ResetEnv)
    (env : Nat → PassEnv) (cenv : ChainEnv) (content : Bytes)
    (hw : mappingsWf cfg.Mappings) :
    mappingsWf (NewMapping cfg oldB newB).2.Mappings ∧
    mappingsWf (NewStringMapping cfg os ns).2.Mappings ∧
    mappingsWf (Reset renv cfg).2.Mappings ∧
    mappingsWf (DoSequentialReplace env cfg content).cfg.Mappings ∧
    mappingsWf (DoChainReplace cenv cfg content).cfg.Mappings := by
  refine ⟨?_, ?_, ?_, ?_, ?_⟩
  · unfold mappingsWf at *
    by_cases h : oldB.length = 0 <;> simp [NewMapping, h, hw]
  · unfold mappingsWf at *
    by_cases h : os = "" <;> simp [NewStringMapping, h, hw]
  · unfold mappingsWf at *
    obtain ⟨ce, sr, orr⟩ := renv
    cases ce <;> rcases sr with e | fd <;> rcases orr with e2 | f <;>
      simp [Reset, hw]
  · rcases DoSequentialReplace_Mappings_cases env cfg content with h | h
    · rw [mappingsWf, h]; exact hw
    · simp [mappingsWf, h]
  · rcases DoChainReplace_Mappings_cases cenv cfg content with h | h
    · rw [mappingsWf, h]; exact hw
    · simp [mappingsWf, h]

/-- Witness for C8: the invariant holds after each operation on a concrete
well-formed Replacer. -/
theorem claim_parallel_lengths_invariant_witness :
    mappingsWf (sampleCfg [[1]] [[2]]).Mappings ∧
    mappingsWf (NewMapping (sampleCfg [[1]] [[2]]) [3] [4]).2.Mappings ∧
    mappingsWf (NewStringMapping (sampleCfg [[1]] [[2]]) "x" "y").2.Mappings ∧
    mappingsWf (Reset sampleResetEnv (sampleCfg [[1]] [[2]])).2.Mappings ∧
    mappingsWf (DoSequentialReplace (fun _ => samplePassEnv)
      (sampleCfg [[1]] [[2]]) [1]).cfg.Mappings ∧
    mappingsWf (DoChainReplace sampleChainEnv (sampleCfg [[1]] [[2]]) [1]).cfg.Mappings :=
  ⟨by decide,
   (claim_parallel_lengths_invariant (sampleCfg [[1]] [[2]]) [3] [4] "x" "y"
      sampleResetEnv (fun _ => samplePassEnv) sampleChainEnv [1] (by decide)).1,
   (claim_parallel_lengths_invariant (sampleCfg [[1]] [[2]]) [3] [4] "x" "y"
      sampleResetEnv (fun _ => samplePassEnv) sampleChainEnv [1] (by decide)).2.1,
   (claim_parallel_lengths_invariant (sampleCfg [[1]] [[2]]) [3] [4] "x" "y"
      sampleResetEnv (fun _ => samplePassEnv) sampleChainEnv [1] (by decide)).2.2.1,
   (claim_parallel_lengths_invariant (sampleCfg [[1]] [[2]]) [3] [4] "x" "y"
      sampleResetEnv (fun _ => samplePassEnv) sampleChainEnv [1] (by decide)).2.2.2.1,
   (claim_parallel_lengths_invariant (sampleCfg [[1]] [[2]]) [3] [4] "x" "y"
      sampleResetEnv (fun _ => samplePassEnv) sampleChainEnv [1] (by decide)).2.2.2.2⟩

/-- Claim C10: Reset is atomic with respect to the Mapping Table: on any
error the table is unchanged; the table is cleared exactly when the close,
the re-stat and the reopen of the working file all succeeded. -/
theorem claim_reset_atomic (env : ResetEnv) (cfg : replacerConfig) :
    ((Reset env cfg).1.isSome = true → (Reset env cfg).2.Mappings = cfg.Mappings) ∧
    ((Reset env cfg).1 = none ↔
      env.closeErr = none ∧ env.statRes.isOk = true ∧ env.openRes.isOk = true) ∧
    ((Reset env cfg).1 = none →
      (Reset env cfg).2.Mappings = { Keys := [], Indices := [] }) := by
  obtain ⟨ce, sr, orr⟩ := env
  cases ce <;> rcases sr with e | fd <;> rcases orr with e2 | f <;>
    simp [Reset, Except.isOk, Except.toBool]

/-- Witness for C10: a failing reopen leaves the table unchanged; a
fault-free Reset clears it. -/
theorem claim_reset_atomic_witness :
    (Reset sampleResetEnvOpenFail (sampleCfg [[1]] [[2]])).1.isSome = true ∧
    (Reset sampleResetEnvOpenFail (sampleCfg [[1]] [[2]])).2.Mappings =
      (sampleCfg [[1]] [[2]]).Mappings ∧
    (Reset sampleResetEnv (sampleCfg [[1]] [[2]])).1 = none ∧
    (Reset sampleResetEnv (sampleCfg [[1]] [[2]])).2.Mappings =
      { Keys := [], Indices := [] } :=
  ⟨by decide,
   (claim_reset_atomic sampleResetEnvOpenFail (sampleCfg [[1]] [[2]])).1 (by decide),
   by decide,
   (claim_reset_atomic sampleResetEnv (sampleCfg [[1]] [[2]])).2.2 (by decide)⟩

/-- Counterexample to C2 as stated: a sequential run whose only pass fails
after io.CopyBuffer has already written 5 bytes to the scratch file returns
the count 0, not 5 — the byte count returned with an error does not reflect
the bytes written to the scratch file in the failing pass. -/
theorem claim_failure_count_counterexample :
    samplePassEnvCopyFail.copyErr = some (5, "disk full") ∧
    (DoSequentialReplace (fun _ => samplePassEnvCopyFail)
      (sampleCfg [[1]] [[2]]) [1, 1, 1]).err = some "disk full" ∧
    (DoSequentialReplace (fun _ => samplePassEnvCopyFail)
      (sampleCfg [[1]] [[2]]) [1, 1, 1]).count = 0 ∧
    (0 : Int) ≠ 5 := by decide

/-- Claim C2 as amended: a failed replace returns, with the error, the sum
of the byte counts of the fully completed per-mapping passes (for the
chained engine: zero); bytes written to the scratch file during the
failing pass are discarded and contribute nothing to the returned count. -/
theorem claim_failure_count_amended (env : Nat → PassEnv) (cenv : ChainEnv)
    (cfg : replacerConfig) (content : Bytes) :
    ((DoSequentialReplace env cfg content).err.isSome = true →
      (DoSequentialReplace env cfg content).count =
        (DoSequentialReplace env cfg content).wrotes.sum) ∧
    ((DoChainReplace cenv cfg content).err.isSome = true →
      (DoChainReplace cenv cfg content).wrote = 0) :=
  ⟨fun _ => DoSequentialReplace_count_sum env cfg content,
   DoChainReplace_err_wrote cenv cfg content⟩

/-- Witness for the amended C2: the failing sequential run returns the sum
of its completed passes' counts (here 0), and a chained run whose rename
fails returns 0. -/
theorem claim_failure_count_amended_witness :
    (DoSequentialReplace (fun _ => samplePassEnvCopyFail)
      (sampleCfg [[1]] [[2]]) [1, 1, 1]).err.isSome = true ∧
    (DoSequentialReplace (fun _ => samplePassEnvCopyFail)
      (sampleCfg [[1]] [[2]]) [1, 1, 1]).count =
      (DoSequentialReplace (fun _ => samplePassEnvCopyFail)
        (sampleCfg [[1]] [[2]]) [1, 1, 1]).wrotes.sum ∧
    (DoChainReplace sampleChainEnvRenameFail (sampleCfg [[1]] [[2]]) [1]).err.isSome = true ∧
    (DoChainReplace sampleChainEnvRenameFail (sampleCfg [[1]] [[2]]) [1]).wrote = 0 :=
  ⟨by decide,
   (claim_failure_count_amended (fun _ => samplePassEnvCopyFail) sampleChainEnvRenameFail
      (sampleCfg [[1]] [[2]]) [1, 1, 1]).1 (by decide),
   by decide,
   (claim_failure_count_amended (fun _ => samplePassEnvCopyFail) sampleChainEnvRenameFail
      (sampleCfg [[1]] [[2]]) [1]).2 (by decide)⟩

/-- Counterexample to C3 as stated: running the chained engine on a working
file `a/b.txt` uses the scratch path `tmp-gosed-1`, a bare relative name
whose directory (the process's current directory, ".") is not the working
file's directory "a". -/
theorem claim_scratch_location_counterexample :
    (DoChainReplace sampleChainEnv (sampleCfg [[1]] [[2]]) [1]).tmpPath =
      "tmp-gosed-1" ∧
    pathDir (DoChainReplace sampleChainEnv (sampleCfg [[1]] [[2]]) [1]).tmpPath = "." ∧
    pathDir (sampleCfg [[1]] [[2]]).FilePath = "a" ∧
    ("." : String) ≠ "a" := by decide

/-- Claim C3 as amended: both engines name the scratch file
tmp-gosed-<nanosecond timestamp>, but only the sequential engine creates it
in the working file's directory (path.Join of path.Dir of the working file
with the name); the chained engine passes the bare name, so its scratch
file lands in the process's current directory. -/
theorem claim_scratch_naming_amended (env : Nat → PassEnv) (cenv : ChainEnv)
    (cfg : replacerConfig) (content : Bytes) :
    (∀ t ∈ (DoSequentialReplace env cfg content).tmpPaths, ∃ ts : Nat,
      t = pathJoin (pathDir cfg.FilePath) ("tmp-gosed-" ++ toString ts)) ∧
    (DoChainReplace cenv cfg content).tmpPath = "tmp-gosed-" ++ toString cenv.ts := by
  refine ⟨?_, DoChainReplace_tmpPath cenv cfg content⟩
  intro t ht
  unfold DoSequentialReplace at ht
  rw [finishSeq_tmpPaths] at ht
  rcases seqLoop_tmpPaths env cfg.Mappings.Indices cfg.Mappings.Keys _ t ht with hin | h
  · simp at hin
  · exact h

/-- Witness for the amended C3: a clean sequential run on `a/b.txt` uses
the scratch path `a/tmp-gosed-7`; the chained run uses the bare name. -/
theorem claim_scratch_naming_amended_witness :
    "a/tmp-gosed-7" ∈ (DoSequentialReplace (fun _ => samplePassEnv)
      (sampleCfg [[1]] [[2]]) [1, 1]).tmpPaths ∧
    (∃ ts : Nat, "a/tmp-gosed-7" =
      pathJoin (pathDir (sampleCfg [[1]] [[2]]).FilePath)
        ("tmp-gosed-" ++ toString ts)) ∧
    (DoChainReplace sampleChainEnv (sampleCfg [[1]] [[2]]) [1, 1]).tmpPath =
      "tmp-gosed-" ++ toString sampleChainEnv.ts :=
  ⟨by decide,
   (claim_scratch_naming_amended (fun _ => samplePassEnv) sampleChainEnv
      (sampleCfg [[1]] [[2]]) [1, 1]).1 "a/tmp-gosed-7" (by decide),
   (claim_scratch_naming_amended (fun _ => samplePassEnv) sampleChainEnv
      (sampleCfg [[1]] [[2]]) [1, 1]).2⟩

/-- Claim C5: on a fault-free run the chained engine builds one reader
chain over all registered mappings in registration order (reader 0 reads
the raw file, reader k reads reader k-1), streams the file through it
exactly once into one scratch file, then removes the original working file
and only afterwards renames the scratch file into place. -/
theorem claim_chained_order (env : ChainEnv) (cfg : replacerConfig)
    (content : Bytes) (hc : cleanChain env) (hk : cfg.Mappings.Keys ≠ [])
    (hw : mappingsWf cfg.Mappings) :
    (DoChainReplace env cfg content).chain =
      some (foldChain (cfg.Mappings.Keys.zip cfg.Mappings.Indices)) ∧
    (DoChainReplace env cfg content).events =
      [FsEvent.openFile cfg.FilePath,
       FsEvent.createFile (DoChainReplace env cfg content).tmpPath,
       FsEvent.copyStream,
       FsEvent.removeFile cfg.FilePath,
       FsEvent.renameFile (DoChainReplace env cfg content).tmpPath cfg.FilePath] ∧
    (DoChainReplace env cfg content).events.count FsEvent.copyStream = 1 ∧
    (∃ ir ij : Nat, ir < ij ∧
      (DoChainReplace env cfg content).events[ir]? =
        some (FsEvent.removeFile cfg.FilePath) ∧
      (DoChainReplace env cfg content).events[ij]? =
        some (FsEvent.renameFile (DoChainReplace env cfg content).tmpPath cfg.FilePath)) := by
  rw [DoChainReplace_clean env cfg content hc hk hw]
  refine ⟨rfl, rfl, ?_, 3, 4, by norm_num, ?_, ?_⟩
  · simp [List.count_cons]
  · simp
  · simp

/-- Witness for C5: the chain, trace and remove-before-rename ordering of a
concrete fault-free chained run with two mappings. -/
theorem claim_chained_order_witness :
    cleanChain sampleChainEnv ∧
    (sampleCfg [[1], [2]] [[2], [3]]).Mappings.Keys ≠ [] ∧
    mappingsWf (sampleCfg [[1], [2]] [[2], [3]]).Mappings ∧
    (DoChainReplace sampleChainEnv (sampleCfg [[1], [2]] [[2], [3]]) [1]).chain =
      some (foldChain ((sampleCfg [[1], [2]] [[2], [3]]).Mappings.Keys.zip
        (sampleCfg [[1], [2]] [[2], [3]]).Mappings.Indices)) ∧
    (DoChainReplace sampleChainEnv (sampleCfg [[1], [2]] [[2], [3]]) [1]).events.count
      FsEvent.copyStream = 1 :=
  ⟨by decide, by decide, by decide,
   (claim_chained_order sampleChainEnv (sampleCfg [[1], [2]] [[2], [3]]) [1]
      (by decide) (by decide) (by decide)).1,
   (claim_chained_order sampleChainEnv (sampleCfg [[1], [2]] [[2], [3]]) [1]
      (by decide) (by decide) (by decide)).2.2.1⟩

/-- Claim C7: after a successful replace by either engine both mapping
sequences are empty, and in the sequential engine the recorded file size
equals the byte count of the last per-mapping pass (unchanged when there
was no pass). -/
theorem claim_success_clears_table (env : Nat → PassEnv) (cenv : ChainEnv)
    (cfg : replacerConfig) (content : Bytes) :
    ((DoSequentialReplace env cfg content).panicked = false →
      (DoSequentialReplace env cfg content).err = none →
      (DoSequentialReplace env cfg content).cfg.Mappings =
        { Keys := [], Indices := [] } ∧
      (DoSequentialReplace env cfg content).cfg.FileSize =
        (DoSequentialReplace env cfg content).wrotes.getLastD cfg.FileSize) ∧
    ((DoChainReplace cenv cfg content).panicked = false →
      (DoChainReplace cenv cfg content).err = none →
      (DoChainReplace cenv cfg content).cfg.Mappings =
        { Keys := [], Indices := [] }) := by
  refine ⟨?_, DoChainReplace_success_clears cenv cfg content⟩
  intro hp he
  refine ⟨?_, DoSequentialReplace_FileSize env cfg content⟩
  unfold DoSequentialReplace at *
  rw [finishSeq_panicked] at hp
  rw [finishSeq_err] at he
  exact finishSeq_success_Mappings _ hp he

/-- Witness for C7: a concrete successful run of each engine clears the
table, and the sequential run's final recorded size is its last pass's
byte count. -/
theorem claim_success_clears_table_witness :
    (DoSequentialReplace (fun _ => samplePassEnv)
      (sampleCfg [[1], [2]] [[2], [3]]) [1, 2]).panicked = false ∧
    (DoSequentialReplace (fun _ => samplePassEnv)
      (sampleCfg [[1], [2]] [[2], [3]]) [1, 2]).err = none ∧
    (DoSequentialReplace (fun _ => samplePassEnv)
      (sampleCfg [[1], [2]] [[2], [3]]) [1, 2]).cfg.Mappings =
      { Keys := [], Indices := [] } ∧
    (DoSequentialReplace (fun _ => samplePassEnv)
      (sampleCfg [[1], [2]] [[2], [3]]) [1, 2]).cfg.FileSize =
      (DoSequentialReplace (fun _ => samplePassEnv)
        (sampleCfg [[1], [2]] [[2], [3]]) [1, 2]).wrotes.getLastD
        (sampleCfg [[1], [2]] [[2], [3]]).FileSize ∧
    (DoChainReplace sampleChainEnv (sampleCfg [[1]] [[2]]) [1]).cfg.Mappings =
      { Keys := [], Indices := [] } :=
  ⟨by decide, by decide,
   ((claim_success_clears_table (fun _ => samplePassEnv) sampleChainEnv
      (sampleCfg [[1], [2]] [[2], [3]]) [1, 2]).1 (by decide) (by decide)).1,
   ((claim_success_clears_table (fun _ => samplePassEnv) sampleChainEnv
      (sampleCfg [[1], [2]] [[2], [3]]) [1, 2]).1 (by decide) (by decide)).2,
   (claim_success_clears_table (fun _ => samplePassEnv) sampleChainEnv
      (sampleCfg [[1]] [[2]]) [1]).2 (by decide) (by decide)⟩

/-- Claim C9: a successful sequential replace returns the sum of the byte
counts written across all per-mapping passes (each pass writing the length
of that pass's transformed stream), not the final file size alone; the
chained replace returns the byte count of its single pass. -/
theorem claim_returned_count (env : Nat → PassEnv) (cenv : ChainEnv)
    (cfg : replacerConfig) (content : Bytes) (hc : ∀ j, cleanPass (env j))
    (hw : mappingsWf cfg.Mappings) (hcc : cleanChain cenv)
    (hk : cfg.Mappings.Keys ≠ []) :
    (DoSequentialReplace env cfg content).wrotes =
      passOutputs (cfg.Mappings.Keys.zip cfg.Mappings.Indices) content ∧
    (DoSequentialReplace env cfg content).count =
      (passOutputs (cfg.Mappings.Keys.zip cfg.Mappings.Indices) content).sum ∧
    (DoChainReplace cenv cfg content).wrote =
      (((foldChain (cfg.Mappings.Keys.zip cfg.Mappings.Indices)).apply
        content).length : Int) := by
  obtain ⟨he, hp, hwr⟩ := DoSequentialReplace_clean env cfg content hc hw
  refine ⟨hwr, ?_, ?_⟩
  · rw [DoSequentialReplace_count_sum env cfg content, hwr]
  · rw [DoChainReplace_clean cenv cfg content hcc hk hw]

/-- Witness for C9: with two mappings on a three-byte file, the sequential
run's count is the sum of two pass counts; the chained run's count is its
single pass's byte count. -/
theorem claim_returned_count_witness :
    (DoSequentialReplace (fun _ => samplePassEnv)
      (sampleCfg [[1], [2]] [[2], [3]]) [1, 2, 9]).wrotes =
      passOutputs ((sampleCfg [[1], [2]] [[2], [3]]).Mappings.Keys.zip
        (sampleCfg [[1], [2]] [[2], [3]]).Mappings.Indices) [1, 2, 9] ∧
    (DoSequentialReplace (fun _ => samplePassEnv)
      (sampleCfg [[1], [2]] [[2], [3]]) [1, 2, 9]).count =
      (passOutputs ((sampleCfg [[1], [2]] [[2], [3]]).Mappings.Keys.zip
        (sampleCfg [[1], [2]] [[2], [3]]).Mappings.Indices) [1, 2, 9]).sum ∧
    (DoChainReplace sampleChainEnv (sampleCfg [[1], [2]] [[2], [3]]) [1, 2, 9]).wrote =
      (((foldChain ((sampleCfg [[1], [2]] [[2], [3]]).Mappings.Keys.zip
        (sampleCfg [[1], [2]] [[2], [3]]).Mappings.Indices)).apply
        [1, 2, 9]).length : Int) :=
  claim_returned_count (fun _ => samplePassEnv) sampleChainEnv
    (sampleCfg [[1], [2]] [[2], [3]]) [1, 2, 9]
    (fun _ => (by decide : cleanPass samplePassEnv)) (by decide) (by decide) (by decide)

end Gosed
